import Mathlib

/-!
Verification development for the RasCAL-2 GUI repository.

The Python sources are shallowly embedded as pure Lean functions:
Python dictionaries become association lists (`List (String × _)`) or
total maps `String → _`, Qt/pydantic/engine calls whose outcome matters
become explicit `Except`/`Option` parameters, in-place mutation becomes
explicit state passing, and `copy.deepcopy` on pure values is the
identity.  Machine floats are modelled by exact rationals where the
claims are about exact guard/clamp logic.
-/

namespace RasCAL2

/-! ### Dictionary helpers

Python dicts that are iterated in insertion order are modelled as
association lists; attribute bags (`model.controls`, `model.project`)
as total maps `String → α`. -/

/-- First value bound to key `k` in an association list (Python `d[k]`
when present). -/
def lookupVal (k : String) : List (String × α) → Option α
  | [] => none
  | (k', v) :: rest => if k' = k then some v else lookupVal k rest

/-- Apply a dict of values over an attribute map: every key present in
`vals` is overwritten, every other attribute is untouched.  Modelled
from the spec: `MainWindowModel.update_controls` / `update_project`
(file `rascal2/ui/model.py`, not under `src/`) are described as "thin
deep-copy/restore wrappers around dictionaries". -/
def applyValues (vals : List (String × α)) (attrs : String → α) : String → α :=
  fun k => (lookupVal k vals).getD (attrs k)

/-- `{attr: getattr(model_class, attr) for attr in new_values}`:
capture the current value of every key of `vals` out of `attrs`. -/
def captureValues (vals : List (String × α)) (attrs : String → α) : List (String × α) :=
  vals.map fun kv => (kv.1, attrs kv.1)

theorem lookupVal_captureValues (k : String) (vals : List (String × α)) (attrs : String → α) :
    lookupVal k (captureValues vals attrs) = (lookupVal k vals).map fun _ => attrs k := by
  induction vals with
  | nil => rfl
  | cons kv rest ih =>
    by_cases h : kv.1 = k
    · simp [captureValues, lookupVal, h]
    · simpa [captureValues, lookupVal, h] using ih

/-- Re-applying the captured old values after applying the new values
restores the attribute map exactly. -/
theorem applyValues_captureValues (vals : List (String × α)) (attrs : String → α) :
    applyValues (captureValues vals attrs) (applyValues vals attrs) = attrs := by
  funext k
  simp only [applyValues, lookupVal_captureValues]
  cases h : lookupVal k vals <;> simp [h]

/-! ### State of the presenter's model and view

Only the pieces touched by `rascal2/core/commands.py` are modelled:
the edited attribute bag (`model.controls` or `model.project`), the
per-class-list parameter values of the project, the results object,
the result log, and the view's terminal / logging / chi-squared
widgets. -/

/-- The main-window model state (`rascal2/ui/model.py`, not under
`src/`).  Modelled from the spec: the model holds references to the
engine-owned project/controls/results objects; `attrs` is the edited
attribute bag, `params` maps each parameter class list to its list of
parameter values, `results` and `resultLog` are the stored outputs. -/
structure ModelState (α ρ : Type) where
  attrs : String → α
  params : String → List α
  results : ρ
  resultLog : String

/-- The view widgets written to by the commands: the terminal widget
(a list of written chunks, a `clear` empties it), the error log, the
chi-squared text box, and a counter of project-view refreshes. -/
structure ViewState where
  terminal : List String
  errorLog : List String
  chiText : String
  projectViewUpdates : Nat

/-- Combined presenter-visible state. -/
structure PState (α ρ : Type) where
  model : ModelState α ρ
  view : ViewState

/-- `model.update_results`: store a results object on the model. -/
def updateResults (r : ρ) (st : PState α ρ) : PState α ρ :=
  { st with model := { st.model with results := r } }

/-- `model.update_controls` / `model.update_project`: apply a dict of
attribute values to the model's attribute bag. -/
def updateAttribute (vals : List (String × α)) (st : PState α ρ) : PState α ρ :=
  { st with model := { st.model with attrs := applyValues vals st.model.attrs } }

/-! ### `rascal2/core/commands.py`: `AbstractModelEdit` -/

/-- State of an `AbstractModelEdit` command (`EditControls` and
`EditProject` differ only in which attribute bag `attrs` stands for). -/
structure ModelEditCmd (α ρ : Type) where
  preview : Bool
  newValues : List (String × α)
  oldValues : List (String × α)
  newResult : Option ρ
  oldResult : ρ

/-- `AbstractModelEdit.__init__`: capture `old_values` from the model
class and deep-copy the current results into `old_result`
(`copy.deepcopy` is the identity on pure values). -/
def mkModelEditCmd (newValues : List (String × α)) (preview : Bool) (st : PState α ρ) :
    ModelEditCmd α ρ :=
  { preview := preview
    newValues := newValues
    oldValues := captureValues newValues st.model.attrs
    newResult := none
    oldResult := st.model.results }

/-- The text of the preview-error message written by
`AbstractModelEdit.redo` (`ex` is the rendered exception). -/
def previewErrorMessage (ex : String) : String :=
  "Error occurred when generating result preview:\n\n" ++ ex

/-- `AbstractModelEdit.undo`. -/
def ModelEditCmd.undo (c : ModelEditCmd α ρ) (st : PState α ρ) : PState α ρ :=
  let st1 := updateAttribute c.oldValues st
  if c.preview then updateResults c.oldResult st1 else st1

/-- `AbstractModelEdit.redo`.  The outcome of `presenter.quick_run()`
(an external engine call) is passed in as `quickRun`; an exception it
raises is an `Except.error` carrying the rendered exception text.
Returns the updated command (its `new_result` field may be assigned)
and the updated state. -/
def ModelEditCmd.redo (quickRun : Except String ρ) (c : ModelEditCmd α ρ) (st : PState α ρ) :
    ModelEditCmd α ρ × PState α ρ :=
  let st1 := updateAttribute c.newValues st
  if c.preview then
    match c.newResult with
    | some r => (c, updateResults r st1)
    | none =>
      match quickRun with
      | .ok r => ({ c with newResult := some r }, updateResults r st1)
      | .error ex =>
        let msg := previewErrorMessage ex
        ({ c with newResult := some c.oldResult },
          updateResults c.oldResult
            { st1 with view := { st1.view with
                errorLog := st1.view.errorLog ++ [msg]
                terminal := st1.view.terminal ++ [msg] } })
  else ({ c with newResult := some c.oldResult }, st1)

/-! ### `rascal2/core/commands.py`: `SaveCalculationOutputs` -/

/-- The parameter class lists iterated by
`SaveCalculationOutputs.get_parameter_values` (the keys of its
`parameter_field` mapping; `ratapi.project.parameter_class_lists` is
an external-engine constant with these entries). -/
def parameterClassLists : List String :=
  ["parameters", "bulk_in", "bulk_out", "scalefactors", "domain_ratios",
   "background_parameters", "resolution_parameters"]

/-- `SaveCalculationOutputs.get_parameter_values`: one entry per
parameter class list, holding that class list's values taken from the
problem definition (modelled as a map from class-list name to value
list). -/
def getParameterValues (problem : String → List α) : List (String × List α) :=
  parameterClassLists.map fun k => (k, problem k)

/-- `ratapi.inputs.make_problem(project)` followed by
`get_parameter_values`, as used for `old_problem`.  Modelled from the
spec: the analysis engine is an opaque dependency; `make_problem`
extracts the project's current parameter values per class list. -/
def problemOfModel (st : PState α ρ) : String → List α :=
  st.model.params

/-- Overwrite the first `vs.length` slots of `xs` with `vs`
(`for index in range(len(value)): xs[index].value = value[index]`);
`none` models the `IndexError` raised when `vs` is longer than `xs`. -/
def setSlots : List α → List α → Option (List α)
  | [], xs => some xs
  | _ :: _, [] => none
  | v :: vs, _ :: xs => (setSlots vs xs).map fun l => v :: l

/-- `SaveCalculationOutputs.set_parameter_values`: walk the dict of
class-list values in order, overwriting the parameter values of each
class list in the project. -/
def setParameterValues : List (String × List α) → (String → List α) →
    Option (String → List α)
  | [], p => some p
  | (k, v) :: rest, p =>
    match setSlots v (p k) with
    | none => none
    | some l => setParameterValues rest (fun k' => if k' = k then l else p k')

/-- State of a `SaveCalculationOutputs` command after `__init__`:
`problem` is `get_parameter_values` of the run's updated problem,
`oldProblem` the captured current project values, `oldResults` a deep
copy of the model's results and `oldLog` the model's result log. -/
structure SaveCalcCmd (α ρ : Type) where
  problem : List (String × List α)
  results : ρ
  log : String
  oldProblem : List (String × List α)
  oldResults : ρ
  oldLog : String

/-- `SaveCalculationOutputs.__init__`. -/
def mkSaveCalcCmd (problem : String → List α) (results : ρ) (log : String)
    (st : PState α ρ) : SaveCalcCmd α ρ :=
  { problem := getParameterValues problem
    results := results
    log := log
    oldProblem := getParameterValues (problemOfModel st)
    oldResults := st.model.results
    oldLog := st.model.resultLog }

/-- `SaveCalculationOutputs.update_calculation_outputs`: set the
parameter values, store a deep copy of the results, set the result
log, write the chi-squared text (`sumChiText` renders
`results.calculationResults.sumChi`, an engine-owned number), clear
the terminal and write the log to it, and refresh the project view. -/
def updateCalculationOutputs (sumChiText : ρ → String)
    (problem : List (String × List α)) (results : ρ) (log : String)
    (st : PState α ρ) : Option (PState α ρ) :=
  (setParameterValues problem st.model.params).map fun p =>
    { model :=
        { st.model with params := p, results := results, resultLog := log }
      view :=
        { st.view with
            chiText := sumChiText results
            terminal := [log]
            projectViewUpdates := st.view.projectViewUpdates + 1 } }

/-- `SaveCalculationOutputs.undo`. -/
def SaveCalcCmd.undo (sumChiText : ρ → String) (c : SaveCalcCmd α ρ)
    (st : PState α ρ) : Option (PState α ρ) :=
  updateCalculationOutputs sumChiText c.oldProblem c.oldResults c.oldLog st

/-- `SaveCalculationOutputs.redo`. -/
def SaveCalcCmd.redo (sumChiText : ρ → String) (c : SaveCalcCmd α ρ)
    (st : PState α ρ) : Option (PState α ρ) :=
  updateCalculationOutputs sumChiText c.problem c.results c.log st

theorem setSlots_length {vs xs l : List α} (h : setSlots vs xs = some l) :
    l.length = xs.length := by
  induction vs generalizing xs l with
  | nil => cases xs <;> simp [setSlots] at h <;> simp [← h]
  | cons v vs ih =>
    cases xs with
    | nil => simp [setSlots] at h
    | cons x xs =>
      simp only [setSlots, Option.map_eq_some'] at h
      obtain ⟨l', hl', rfl⟩ := h
      simp [ih hl']

theorem setSlots_self_of_length {vs xs : List α} (h : vs.length = xs.length) :
    setSlots vs xs = some vs := by
  induction vs generalizing xs with
  | nil => cases xs with
    | nil => rfl
    | cons x xs => simp at h
  | cons v vs ih =>
    cases xs with
    | nil => simp at h
    | cons x xs =>
      simp only [List.length_cons, Nat.succ.injEq] at h
      simp [setSlots, ih h]

theorem setParameterValues_lengths {vals : List (String × List α)}
    {p p' : String → List α} (h : setParameterValues vals p = some p') :
    ∀ k, (p' k).length = (p k).length := by
  induction vals generalizing p with
  | nil =>
    intro k
    simp only [setParameterValues, Option.some.injEq] at h
    rw [← h]
  | cons kv rest ih =>
    intro k
    obtain ⟨k₀, v₀⟩ := kv
    simp only [setParameterValues] at h
    cases hs : setSlots v₀ (p k₀) with
    | none => rw [hs] at h; exact absurd h (by simp)
    | some l =>
      rw [hs] at h
      have := ih h k
      rw [this]
      by_cases hk : k = k₀
      · subst hk; simp [setSlots_length hs]
      · simp [hk]

/-- Setting captured values back (`setParameterValues` with the full
current value list of every class list) succeeds and restores those
class lists, provided all list lengths are unchanged. -/
theorem setParameterValues_capture (ks : List String) (pOrig pCur : String → List α)
    (hlen : ∀ k, (pCur k).length = (pOrig k).length) :
    ∃ p', setParameterValues (ks.map fun k => (k, pOrig k)) pCur = some p' ∧
      (∀ k, k ∈ ks → p' k = pOrig k) ∧
      (∀ k, k ∉ ks → p' k = pCur k) := by
  induction ks generalizing pCur with
  | nil => exact ⟨pCur, rfl, by simp, fun _ _ => rfl⟩
  | cons k₀ ks ih =>
    have hset : setSlots (pOrig k₀) (pCur k₀) = some (pOrig k₀) :=
      setSlots_self_of_length (hlen k₀).symm
    set pNext : String → List α := fun k' => if k' = k₀ then pOrig k₀ else pCur k' with hpN
    have hlenN : ∀ k, (pNext k).length = (pOrig k).length := by
      intro k
      by_cases hk : k = k₀
      · subst hk; simp [hpN]
      · simp [hpN, hk, hlen k]
    obtain ⟨p', hp', hmem, hnotmem⟩ := ih pNext hlenN
    refine ⟨p', ?_, ?_, ?_⟩
    · simp only [List.map_cons, setParameterValues, hset, hp']
    · intro k hk
      rcases List.mem_cons.mp hk with rfl | hk'
      · by_cases hmem' : k ∈ ks
        · exact hmem k hmem'
        · rw [hnotmem k hmem']; simp [hpN]
      · exact hmem k hk'
    · intro k hk
      have hk₀ : k ≠ k₀ := fun h => hk (h ▸ List.mem_cons_self _ _)
      have hks : k ∉ ks := fun h => hk (List.mem_cons_of_mem _ h)
      rw [hnotmem k hks]
      simp [hpN, hk₀]

theorem setParameterValues_notmem {vals : List (String × List α)}
    {p p' : String → List α} (h : setParameterValues vals p = some p') :
    ∀ k, k ∉ vals.map Prod.fst → p' k = p k := by
  induction vals generalizing p with
  | nil =>
    intro k _
    simp only [setParameterValues, Option.some.injEq] at h
    rw [← h]
  | cons kv rest ih =>
    intro k hk
    obtain ⟨k₀, v₀⟩ := kv
    simp only [List.map_cons, List.mem_cons, not_or] at hk
    obtain ⟨hk₀, hkrest⟩ := hk
    simp only [setParameterValues] at h
    cases hs : setSlots v₀ (p k₀) with
    | none => rw [hs] at h; exact absurd h (by simp)
    | some l =>
      rw [hs] at h
      rw [ih h k hkrest]
      simp [hk₀]

/-- A concrete state used by witnesses. -/
def exampleState : PState Nat Nat :=
  { model := { attrs := fun _ => 0, params := fun _ => [], results := 0, resultLog := "" }
    view := { terminal := [], errorLog := [], chiText := "", projectViewUpdates := 0 } }

/-- C1: for every model-edit undo command the edited attributes are
captured at construction into `old_values` and `undo()` re-applies
exactly those captured values, so `redo()` followed by `undo()`
restores every edited attribute of the model to its pre-command value;
likewise `SaveCalculationOutputs.undo()` restores the parameter
values, a deep copy of the results, and the log text captured before
the run. -/
theorem c1_undo_restores_captured_values :
    (∀ (α ρ : Type) (st : PState α ρ) (nv : List (String × α)) (preview : Bool)
        (quickRun : Except String ρ),
      (mkModelEditCmd nv preview st).oldValues = captureValues nv st.model.attrs ∧
      ∀ k, (((mkModelEditCmd nv preview st).redo quickRun st).1.undo
              ((mkModelEditCmd nv preview st).redo quickRun st).2).model.attrs k
            = st.model.attrs k) ∧
    (∀ (α ρ : Type) (sumChiText : ρ → String) (problem : String → List α)
        (results : ρ) (log : String) (st st1 : PState α ρ),
      (mkSaveCalcCmd problem results log st).redo sumChiText st = some st1 →
      ∃ st2, (mkSaveCalcCmd problem results log st).undo sumChiText st1 = some st2 ∧
        st2.model.params = st.model.params ∧
        st2.model.results = st.model.results ∧
        st2.model.resultLog = st.model.resultLog) := by
  constructor
  · intro α ρ st nv preview quickRun
    refine ⟨rfl, fun k => ?_⟩
    have hrestore := congrFun (applyValues_captureValues nv st.model.attrs) k
    cases preview with
    | false =>
      simpa [mkModelEditCmd, ModelEditCmd.redo, ModelEditCmd.undo, updateAttribute,
        updateResults] using hrestore
    | true =>
      cases quickRun with
      | ok r =>
        simpa [mkModelEditCmd, ModelEditCmd.redo, ModelEditCmd.undo, updateAttribute,
          updateResults] using hrestore
      | error ex =>
        simpa [mkModelEditCmd, ModelEditCmd.redo, ModelEditCmd.undo, updateAttribute,
          updateResults] using hrestore
  · intro α ρ sumChiText problem results log st st1 h
    simp only [SaveCalcCmd.redo, mkSaveCalcCmd, updateCalculationOutputs,
      Option.map_eq_some'] at h
    obtain ⟨p, hp, hst1⟩ := h
    have hlen : ∀ k, (st1.model.params k).length = (st.model.params k).length := by
      intro k
      rw [← hst1]
      exact setParameterValues_lengths hp k
    obtain ⟨p', hp', hmem, hnotmem⟩ :=
      setParameterValues_capture parameterClassLists st.model.params st1.model.params hlen
    have hpfull : p' = st.model.params := by
      funext k
      by_cases hk : k ∈ parameterClassLists
      · exact hmem k hk
      · rw [hnotmem k hk, ← hst1]
        refine setParameterValues_notmem hp k ?_
        simpa [getParameterValues] using hk
    refine ⟨{ model :=
                { attrs := st1.model.attrs, params := p',
                  results := st.model.results, resultLog := st.model.resultLog },
              view :=
                { terminal := [st.model.resultLog], errorLog := st1.view.errorLog,
                  chiText := sumChiText st.model.results,
                  projectViewUpdates := st1.view.projectViewUpdates + 1 } },
        ?_, hpfull, rfl, rfl⟩
    simp only [SaveCalcCmd.undo, mkSaveCalcCmd, updateCalculationOutputs,
      problemOfModel, getParameterValues, hp', Option.map_some']

/-- C1 witness: the theorem applied to a concrete edit (`preview`
true, quick run succeeding) and a concrete calculation save. -/
theorem c1_undo_restores_captured_values_witness :
    ((((mkModelEditCmd [("procedure", 5)] true exampleState).redo (Except.ok 7)
          exampleState).1.undo
        ((mkModelEditCmd [("procedure", 5)] true exampleState).redo (Except.ok 7)
          exampleState).2).model.attrs "procedure"
      = exampleState.model.attrs "procedure") ∧
    ∃ st2, (mkSaveCalcCmd (fun _ => ([] : List Nat)) 3 "run log" exampleState).undo
        (fun _ => "0.1")
        (((mkSaveCalcCmd (fun _ => ([] : List Nat)) 3 "run log" exampleState).redo
            (fun _ => "0.1") exampleState).get (by rfl)) = some st2 ∧
      st2.model.params = exampleState.model.params ∧
      st2.model.results = exampleState.model.results ∧
      st2.model.resultLog = exampleState.model.resultLog :=
  ⟨(c1_undo_restores_captured_values.1 Nat Nat exampleState [("procedure", 5)] true
      (Except.ok 7)).2 "procedure",
    c1_undo_restores_captured_values.2 Nat Nat (fun _ => "0.1") (fun _ => []) 3 "run log"
      exampleState _ (Option.some_get _).symm⟩

/-- C4: when `redo()` of a preview model-edit command runs the quick
calculation and it raises, the exception does not propagate (`redo` is
a total function here): `new_result` is set to the pre-edit result,
the model's results are set back to that pre-edit result, and the
error message is logged and written to the terminal widget. -/
theorem c4_preview_error_caught : ∀ (α ρ : Type) (st : PState α ρ)
    (nv : List (String × α)) (ex : String),
    ((mkModelEditCmd nv true st).redo (Except.error ex) st).1.newResult
        = some st.model.results ∧
    ((mkModelEditCmd nv true st).redo (Except.error ex) st).2.model.results
        = st.model.results ∧
    previewErrorMessage ex ∈
      ((mkModelEditCmd nv true st).redo (Except.error ex) st).2.view.errorLog ∧
    previewErrorMessage ex ∈
      ((mkModelEditCmd nv true st).redo (Except.error ex) st).2.view.terminal := by
  intro α ρ st nv ex
  refine ⟨rfl, rfl, ?_, ?_⟩ <;>
    simp [mkModelEditCmd, ModelEditCmd.redo, updateAttribute, updateResults]

/-! ### `rascal2/core/worker.py` -/

/-- The two Qt signals a `Worker` can emit. -/
inductive WorkerSignal (γ ε β : Type) where
  | job_succeeded (result : β)
  | job_failed (error : ε) (args : γ)
  deriving DecidableEq

/-- A `Worker` thread object: the function to run (fallible code
returns `Except`, where `Except.error` is a raised `Exception`), its
argument tuple, and the `stopped` flag. -/
structure Worker (γ ε β : Type) where
  func : γ → Except ε β
  args : γ
  stopped : Bool

/-- `Worker.__init__`: `stopped` starts out false. -/
def mkWorker (func : γ → Except ε β) (args : γ) : Worker γ ε β :=
  { func := func, args := args, stopped := false }

/-- `Worker.run`: returns the list of emitted signals together with
the number of times `func` was called.  The `try`/`except Exception`
means `run` itself never raises, which the embedding reflects by being
a total function. -/
def Worker.run (w : Worker γ ε β) : List (WorkerSignal γ ε β) × Nat :=
  if w.stopped then ([], 0)
  else
    match w.func w.args with
    | .ok result => ([.job_succeeded result], 1)
    | .error e => ([.job_failed e w.args], 1)

/-- `Worker.stop`: sets the `stopped` flag (the `quit`/`wait` thread
calls have no effect on the emitted-signal behaviour). -/
def Worker.stop (w : Worker γ ε β) : Worker γ ε β :=
  { w with stopped := true }

/-- C2: `Worker.run` emits `job_succeeded` with the return value iff
`func(*args)` returns without raising, emits `job_failed` with the
exception and args iff `func(*args)` raises, exactly one signal is
emitted per (non-stopped) run, and if `stop()` was called before `run`
executes then no signal is emitted and `func` is never called. -/
theorem c2_worker_run_signals : ∀ (γ ε β : Type) (w : Worker γ ε β),
    (w.stopped = false →
      (∀ r : β, WorkerSignal.job_succeeded r ∈ w.run.1 ↔ w.func w.args = .ok r) ∧
      (∀ (e : ε) (a : γ),
        WorkerSignal.job_failed e a ∈ w.run.1 ↔ w.func w.args = .error e ∧ a = w.args) ∧
      w.run.1.length = 1) ∧
    (w.stopped = true → w.run = ([], 0)) ∧
    (w.stop.run = ([], 0)) := by
  intro γ ε β w
  refine ⟨fun hs => ⟨fun r => ?_, fun e a => ?_, ?_⟩, fun hs => ?_, ?_⟩
  · cases hf : w.func w.args with
    | ok r' => simp [Worker.run, hs, hf, eq_comm]
    | error e => simp [Worker.run, hs, hf]
  · cases hf : w.func w.args with
    | ok r' => simp [Worker.run, hs, hf]
    | error e' => simp [Worker.run, hs, hf, And.comm, eq_comm]
  · cases hf : w.func w.args with
    | ok r' => simp [Worker.run, hs, hf]
    | error e' => simp [Worker.run, hs, hf]
  · simp [Worker.run, hs]
  · simp [Worker.run, Worker.stop]

/-- C2 witness: a concrete worker whose function succeeds, and the
stopped case. -/
theorem c2_worker_run_signals_witness :
    (WorkerSignal.job_succeeded 11 ∈ (mkWorker (fun n : Nat => Except.ok (ε := Nat) (n + 1)) 10).run.1
      ↔ (fun n : Nat => Except.ok (ε := Nat) (n + 1)) 10 = .ok 11) ∧
    ((mkWorker (fun n : Nat => Except.ok (ε := Nat) (n + 1)) 10).stop.run = ([], 0)) :=
  ⟨(c2_worker_run_signals Nat Nat Nat
      (mkWorker (fun n : Nat => Except.ok (n + 1)) 10)).1 rfl |>.1 11,
    (c2_worker_run_signals Nat Nat Nat
      (mkWorker (fun n : Nat => Except.ok (n + 1)) 10)).2.2⟩

/-! ### `rascal2/widgets/project/slider_view.py`: `LabeledSlider`

The unit conversions use Python floats; they are embedded over exact
rationals, which is what the claims about the guard (`10e-7`) and the
clamp are about. -/

/-- Python's `int(round(x, 0))`: round half to even (the already
integral result is unchanged by `int`). -/
def pyRound (q : ℚ) : ℤ :=
  if q - ⌊q⌋ < 1 / 2 then ⌊q⌋
  else if 1 / 2 < q - ⌊q⌋ then ⌊q⌋ + 1
  else if ⌊q⌋ % 2 = 0 then ⌊q⌋ else ⌊q⌋ + 1

theorem pyRound_intCast (n : ℤ) : pyRound (n : ℚ) = n := by
  have h0 : ((n : ℚ) - ⌊(n : ℚ)⌋ : ℚ) = 0 := by simp
  rw [pyRound, if_pos (by rw [h0]; norm_num)]
  simp

/-- The parameter bounds used by the conversions
(`ratapi.models.Parameter` is engine-owned; only `min` and `max` are
read here). -/
structure RatParam where
  min : ℚ
  max : ℚ
  deriving DecidableEq

/-- `self._slider.maximum()`: the slider is created with
`setMaximum(100)`. -/
def sliderMaximum : ℤ := 100

/-- `LabeledSlider._param_value_to_slider_value`. -/
def param_value_to_slider_value (p : RatParam) (paramValue : ℚ) : ℤ :=
  let paramValueRange := p.max - p.min
  if |paramValueRange| < 10 / 10000000 then sliderMaximum
  else pyRound ((sliderMaximum : ℚ) * (paramValue - p.min) / paramValueRange)

/-- `LabeledSlider._slider_value_to_param_value`. -/
def slider_value_to_param_value (p : RatParam) (value : ℤ) : ℚ :=
  let valueStep := (p.max - p.min) / (sliderMaximum : ℚ)
  let paramValue := p.min + value * valueStep
  if p.max < paramValue then p.max else paramValue

/-- C6: the conversions are total and range-respecting: when
`|max - min| < 10e-7` the parameter-to-slider conversion returns the
slider maximum 100 (so the division is never taken with a
near-zero range), and for `min ≤ max` and any slider position in
`[0, 100]` the slider-to-parameter conversion lands in
`[min, max]` (values above `max` are clamped to `max`). -/
theorem c6_slider_conversions_total_and_in_range : ∀ (p : RatParam) (v : ℚ) (i : ℤ),
    (|p.max - p.min| < 10 / 10000000 → param_value_to_slider_value p v = 100) ∧
    (p.min ≤ p.max → 0 ≤ i → i ≤ 100 →
      p.min ≤ slider_value_to_param_value p i ∧
        slider_value_to_param_value p i ≤ p.max) := by
  intro p v i
  constructor
  · intro h
    rw [param_value_to_slider_value, if_pos h]
    rfl
  · intro hle hi0 hi100
    rw [slider_value_to_param_value]
    simp only [sliderMaximum]
    by_cases hc : p.max < p.min + (i : ℚ) * ((p.max - p.min) / ((100 : ℤ) : ℚ))
    · rw [if_pos hc]
      exact ⟨hle, le_refl _⟩
    · rw [if_neg hc]
      refine ⟨?_, not_lt.mp hc⟩
      have hstep : (0 : ℚ) ≤ (p.max - p.min) / ((100 : ℤ) : ℚ) := by
        apply div_nonneg (sub_nonneg.mpr hle)
        norm_num
      nlinarith [mul_nonneg (show (0 : ℚ) ≤ (i : ℚ) by exact_mod_cast hi0) hstep]

/-- C6 witness: a degenerate range returns 100, and position 50 on
`[0, 1]` stays within bounds. -/
theorem c6_slider_conversions_total_and_in_range_witness :
    param_value_to_slider_value ⟨0, 0⟩ (1 / 2) = 100 ∧
    ((⟨0, 1⟩ : RatParam).min ≤ slider_value_to_param_value ⟨0, 1⟩ 50 ∧
      slider_value_to_param_value ⟨0, 1⟩ 50 ≤ (⟨0, 1⟩ : RatParam).max) :=
  ⟨(c6_slider_conversions_total_and_in_range ⟨0, 0⟩ (1 / 2) 50).1 (by norm_num),
    (c6_slider_conversions_total_and_in_range ⟨0, 1⟩ (1 / 2) 50).2
      (by norm_num) (by norm_num) (by norm_num)⟩

/-- C7 counterexample: for the parameter with `min = 0` and
`max = 1e-7` we have `max > min`, yet converting slider position 0 to
a parameter value and back yields 100, not 0: the range is below the
`10e-7` degenerate-range guard of `_param_value_to_slider_value`, so
the round trip breaks even though `max > min`. -/
theorem c7_roundtrip_counterexample :
    (⟨0, 1 / 10000000⟩ : RatParam).min < (⟨0, 1 / 10000000⟩ : RatParam).max ∧
    param_value_to_slider_value ⟨0, 1 / 10000000⟩
        (slider_value_to_param_value ⟨0, 1 / 10000000⟩ 0) ≠ 0 := by
  constructor
  · norm_num
  · have h1 : slider_value_to_param_value ⟨0, 1 / 10000000⟩ 0 = 0 := by
      rw [slider_value_to_param_value]
      norm_num
    rw [h1, param_value_to_slider_value,
      if_pos (by rw [abs_of_pos (by norm_num)]; norm_num)]
    simp [sliderMaximum]

/-- C7 (amended): for every parameter whose range `max - min` is at
least `10e-7` (so the degenerate-range guard does not fire) and every
slider position `i ∈ [0, 100]`, converting `i` to a parameter value
and back yields `i` again. -/
theorem c7_slider_roundtrip_amended : ∀ (p : RatParam) (i : ℤ),
    10 / 10000000 ≤ p.max - p.min → 0 ≤ i → i ≤ 100 →
    param_value_to_slider_value p (slider_value_to_param_value p i) = i := by
  intro p i hrange hi0 hi100
  have hpos : (0 : ℚ) < p.max - p.min := lt_of_lt_of_le (by norm_num) hrange
  have hne : p.max - p.min ≠ 0 := ne_of_gt hpos
  have hnoclamp : ¬ p.max < p.min + (i : ℚ) * ((p.max - p.min) / ((100 : ℤ) : ℚ)) := by
    push_neg
    have : (i : ℚ) * ((p.max - p.min) / ((100 : ℤ) : ℚ))
        ≤ (100 : ℚ) * ((p.max - p.min) / ((100 : ℤ) : ℚ)) := by
      apply mul_le_mul_of_nonneg_right
      · exact_mod_cast hi100
      · positivity
    nlinarith
  rw [slider_value_to_param_value]
  simp only [sliderMaximum] at hnoclamp ⊢
  rw [if_neg hnoclamp, param_value_to_slider_value,
    if_neg (by rw [abs_of_pos hpos]; exact not_lt.mpr hrange)]
  have harg : (sliderMaximum : ℚ) * (p.min + (i : ℚ) * ((p.max - p.min) / ((100 : ℤ) : ℚ)) - p.min)
      / (p.max - p.min) = (i : ℚ) := by
    simp only [sliderMaximum]
    field_simp
    ring
  rw [harg, pyRound_intCast]

/-- C7 (amended) witness: round trip at position 37 on `[0, 1]`. -/
theorem c7_slider_roundtrip_amended_witness :
    param_value_to_slider_value ⟨0, 1⟩ (slider_value_to_param_value ⟨0, 1⟩ 37) = 37 :=
  c7_slider_roundtrip_amended ⟨0, 1⟩ 37 (by norm_num) (by norm_num) (by norm_num)

/-! ### Filesystem paths

`pathlib.Path` values are modelled as segment lists;
`p.is_relative_to(base)` is `base.isPrefixOf p`.  `EXAMPLES_PATH`
lives in `rascal2/config.py` (not under `src/`), so it is passed
around as an abstract path. -/

/-- A filesystem path as a list of segments. -/
abbrev FsPath := List String

/-- `str(path)` as used in messages. -/
def pathString (p : FsPath) : String := String.intercalate "/" p

/-! ### `rascal2/dialogs/custom_file_editor.py`: `CustomFileEditorDialog` -/

/-- The dialog state read and written by `save_file`. -/
structure EditorDialog where
  file : FsPath
  unchangedText : String
  editorText : String
  windowTitle : String
  deriving DecidableEq

/-- `CustomFileEditorDialog.is_modified`. -/
def is_modified (d : EditorDialog) : Bool :=
  d.unchangedText != d.editorText

/-- `CustomFileEditorDialog.show_modified`. -/
def show_modified (d : EditorDialog) : EditorDialog :=
  { d with windowTitle :=
      (if is_modified d then "* " else "") ++ "Edit " ++ pathString d.file }

/-- Everything observable about one `save_file` call: the updated
dialog, the text written to disk (if any), whether the warning or
critical message box was shown, and the error messages logged. -/
structure SaveFileResult where
  dialog : EditorDialog
  written : Option String
  warningShown : Bool
  criticalShown : Bool
  loggedErrors : List String
  deriving DecidableEq

/-- `CustomFileEditorDialog.save_file`.  The outcome of
`self.file.write_text(...)` is passed in as `writeAttempt`
(`Except.error` is a raised `OSError`). -/
def save_file (examplesPath : FsPath) (writeAttempt : Except String Unit)
    (d : EditorDialog) : SaveFileResult :=
  if is_modified d = false then
    { dialog := d, written := none, warningShown := false, criticalShown := false,
      loggedErrors := [] }
  else if examplesPath.isPrefixOf d.file then
    { dialog := d, written := none, warningShown := true, criticalShown := false,
      loggedErrors := [] }
  else
    match writeAttempt with
    | .ok _ =>
      { dialog := show_modified { d with unchangedText := d.editorText },
        written := some d.editorText, warningShown := false, criticalShown := false,
        loggedErrors := [] }
    | .error _ =>
      { dialog := d, written := none, warningShown := false, criticalShown := true,
        loggedErrors := ["Failed to save custom file to " ++ pathString d.file ++ ".\n"] }

/-! ### `rascal2/ui/presenter.py`: `export_results` and `save_project` -/

/-- Inputs of `MainWindowPresenter.export_results`: the model's
results object (`none` models a falsy/absent results), the file chosen
in the save dialog (`none` when cancelled), and the outcome of
`results.save` at a given path (`Except.error` is a raised
`OSError`). -/
structure ExportEnv (ρ : Type) where
  results : Option ρ
  chosenFile : Option String
  save : String → Except String Unit

/-- `MainWindowPresenter.export_results`, returning the updated error
log of `view.logging`. -/
def export_results (env : ExportEnv ρ) (errorLog : List String) : List String :=
  match env.results with
  | none => errorLog
  | some _ =>
    match env.chosenFile with
    | none => errorLog
    | some f =>
      match env.save f with
      | .ok _ => errorLog
      | .error _ => errorLog ++ ["Failed to save project at path " ++ f ++ ".\n"]

/-- Inputs of `MainWindowPresenter.save_project`: the model's current
save path, the `save_as` flag, and the folder the user picks in
`view.get_project_folder` (`none` when the dialog is cancelled). -/
structure SaveProjectEnv where
  savePath : FsPath
  saveAs : Bool
  chosenFolder : Option FsPath

/-- Everything observable about one `save_project` call. -/
structure SaveProjectResult where
  returned : Bool
  savedAt : Option FsPath
  folderDialogShown : Bool
  savePath : FsPath
  deriving DecidableEq

/-- `MainWindowPresenter.save_project`. -/
def save_project (examplesPath : FsPath) (env : SaveProjectEnv) : SaveProjectResult :=
  if env.saveAs || examplesPath.isPrefixOf env.savePath then
    match env.chosenFolder with
    | none =>
      { returned := false, savedAt := none, folderDialogShown := true,
        savePath := env.savePath }
    | some p =>
      { returned := true, savedAt := some p, folderDialogShown := true, savePath := p }
  else
    { returned := true, savedAt := some env.savePath, folderDialogShown := false,
      savePath := env.savePath }

/-- C5: filesystem errors during saving are caught at the UI boundary:
an `OSError` from `results.save` in `export_results` is caught and
logged (the function returns normally), and an `OSError` while
writing a custom file is caught by `save_file`, which logs the error
and shows a modal critical dialog, leaving `unchanged_text` as it
was. -/
theorem c5_filesystem_errors_caught : ∀ (ρ : Type) (env : ExportEnv ρ) (r : ρ)
    (f : String) (errLog : List String) (examplesPath : FsPath) (d : EditorDialog)
    (err : String),
    (env.results = some r → env.chosenFile = some f → env.save f = .error err →
      export_results env errLog
        = errLog ++ ["Failed to save project at path " ++ f ++ ".\n"]) ∧
    (is_modified d = true → examplesPath.isPrefixOf d.file = false →
      (save_file examplesPath (.error err) d).loggedErrors
          = ["Failed to save custom file to " ++ pathString d.file ++ ".\n"] ∧
      (save_file examplesPath (.error err) d).criticalShown = true ∧
      (save_file examplesPath (.error err) d).written = none ∧
      (save_file examplesPath (.error err) d).dialog.unchangedText
          = d.unchangedText) := by
  intro ρ env r f errLog examplesPath d err
  constructor
  · intro h1 h2 h3
    simp [export_results, h1, h2, h3]
  · intro hmod hex
    simp [save_file, hmod, hex]

/-- C5 witness: a failing export and a failing custom-file write at
concrete inputs. -/
theorem c5_filesystem_errors_caught_witness :
    (export_results
        (⟨some 1, some "out.json", fun _ => Except.error "disk full"⟩ : ExportEnv Nat) []
      = [] ++ ["Failed to save project at path " ++ "out.json" ++ ".\n"]) ∧
    ((save_file ["examples"] (.error "disk full")
        ⟨["home", "f.py"], "old", "new", "t"⟩).loggedErrors
      = ["Failed to save custom file to "
          ++ pathString (["home", "f.py"] : FsPath) ++ ".\n"] ∧
      (save_file ["examples"] (.error "disk full")
        ⟨["home", "f.py"], "old", "new", "t"⟩).criticalShown = true ∧
      (save_file ["examples"] (.error "disk full")
        ⟨["home", "f.py"], "old", "new", "t"⟩).written = none ∧
      (save_file ["examples"] (.error "disk full")
        ⟨["home", "f.py"], "old", "new", "t"⟩).dialog.unchangedText
        = (⟨["home", "f.py"], "old", "new", "t"⟩ : EditorDialog).unchangedText) :=
  ⟨(c5_filesystem_errors_caught Nat ⟨some 1, some "out.json", fun _ => .error "disk full"⟩
      1 "out.json" [] ["examples"] ⟨["home", "f.py"], "old", "new", "t"⟩ "disk full").1
      rfl rfl rfl,
    (c5_filesystem_errors_caught Nat ⟨some 1, some "out.json", fun _ => .error "disk full"⟩
      1 "out.json" [] ["examples"] ⟨["home", "f.py"], "old", "new", "t"⟩ "disk full").2
      (by decide) (by decide)⟩

/-- C8 counterexample: an unmodified file inside the examples
directory.  `save_file` returns at the `is_modified` guard, so no
warning is shown even though the file lies inside `EXAMPLES_PATH`,
contradicting the claim that a warning is shown whenever the edited
file lies inside `EXAMPLES_PATH`. -/
theorem c8_examples_counterexample :
    (["examples"] : FsPath).isPrefixOf
        ((⟨["examples", "ex1", "custom.py"], "text", "text", "t"⟩ : EditorDialog).file)
      = true ∧
    (save_file ["examples"] (Except.ok ())
        ⟨["examples", "ex1", "custom.py"], "text", "text", "t"⟩).warningShown = false := by
  constructor <;> rfl

/-- C8 (amended): no save path inside the examples directory is ever
accepted silently: whenever the project's save path lies inside
`EXAMPLES_PATH`, `save_project` opens the folder dialog, returns
`False` without saving when no folder is chosen, and saves to the
chosen folder otherwise; and `save_file` never writes a file lying
inside `EXAMPLES_PATH`, showing the warning whenever additionally the
text has been modified (an unmodified file is returned from silently,
without writing or warning). -/
theorem c8_no_saving_into_examples_amended : ∀ (examplesPath : FsPath)
    (env : SaveProjectEnv) (p : FsPath) (writeAttempt : Except String Unit)
    (d : EditorDialog),
    (examplesPath.isPrefixOf env.savePath = true →
      (save_project examplesPath env).folderDialogShown = true ∧
      (env.chosenFolder = none →
        (save_project examplesPath env).returned = false ∧
        (save_project examplesPath env).savedAt = none) ∧
      (env.chosenFolder = some p →
        (save_project examplesPath env).savedAt = some p)) ∧
    (examplesPath.isPrefixOf d.file = true →
      (save_file examplesPath writeAttempt d).written = none ∧
      (is_modified d = true →
        (save_file examplesPath writeAttempt d).warningShown = true)) := by
  intro examplesPath env p writeAttempt d
  constructor
  · intro hpath
    refine ⟨?_, fun hnone => ?_, fun hsome => ?_⟩ <;>
      cases hch : env.chosenFolder <;>
        simp_all [save_project, hpath]
  · intro hpath
    cases hmod : is_modified d with
    | false => simp [save_file, hmod]
    | true => simp [save_file, hmod, hpath]

/-- C8 (amended) witness: a modified file inside the examples
directory is refused with a warning, and `save_project` with an
examples save path and a cancelled dialog returns `False` without
saving. -/
theorem c8_no_saving_into_examples_amended_witness :
    ((save_project ["examples"] ⟨["examples", "ex1"], false, none⟩).returned = false ∧
      (save_project ["examples"] ⟨["examples", "ex1"], false, none⟩).savedAt = none) ∧
    ((save_file ["examples"] (Except.ok ())
        ⟨["examples", "ex1", "custom.py"], "old", "new", "t"⟩).written = none ∧
      (save_file ["examples"] (Except.ok ())
        ⟨["examples", "ex1", "custom.py"], "old", "new", "t"⟩).warningShown = true) :=
  ⟨((c8_no_saving_into_examples_amended ["examples"] ⟨["examples", "ex1"], false, none⟩
      [] (Except.ok ()) ⟨["examples", "ex1", "custom.py"], "old", "new", "t"⟩).1
      (by decide)).2.1 rfl,
    ⟨((c8_no_saving_into_examples_amended ["examples"] ⟨["examples", "ex1"], false, none⟩
        [] (Except.ok ()) ⟨["examples", "ex1", "custom.py"], "old", "new", "t"⟩).2
        (by decide)).1,
      ((c8_no_saving_into_examples_amended ["examples"] ⟨["examples", "ex1"], false, none⟩
        [] (Except.ok ()) ⟨["examples", "ex1", "custom.py"], "old", "new", "t"⟩).2
        (by decide)).2 (by decide)⟩⟩

/-! ### `rascal2/ui/presenter.py`: `edit_controls` and `edit_project` -/

/-- Presenter state plus the view's undo stack. -/
structure StackState (α ρ : Type) where
  state : PState α ρ
  stack : List (ModelEditCmd α ρ)

/-- `QUndoStack.push`: executes the command's `redo` and places it on
the stack (Qt's merging of consecutive commands with equal ids does
not matter to the claims settled here). -/
def pushCommand (qr : Except String ρ) (c : ModelEditCmd α ρ) (s : StackState α ρ) :
    StackState α ρ :=
  ⟨(c.redo qr s.state).2, (c.redo qr s.state).1 :: s.stack⟩

/-- `MainWindowPresenter.edit_controls`: validate `{setting: value}`
against the controls model (pydantic `model_validate`, passed as
`validate`) before pushing an `EditControls` command.  A raised
`ValidationError` is returned alongside the unchanged state. -/
def edit_controls (validate : List (String × α) → Except String Unit)
    (setting : String) (value : α) (qr : Except String ρ) (s : StackState α ρ) :
    StackState α ρ × Option String :=
  match validate [(setting, value)] with
  | .error e => (s, some e)
  | .ok _ => (pushCommand qr (mkModelEditCmd [(setting, value)] false s.state) s, none)

/-- `MainWindowPresenter.edit_project`: merge the updated attributes
over `project.model_dump()`, validate the merged project dict, then
push an `EditProject` command. -/
def edit_project (validateProject : (String → α) → Except String Unit)
    (upd : List (String × α)) (preview : Bool) (qr : Except String ρ)
    (s : StackState α ρ) : StackState α ρ × Option String :=
  match validateProject (applyValues upd s.state.model.attrs) with
  | .error e => (s, some e)
  | .ok _ => (pushCommand qr (mkModelEditCmd upd preview s.state) s, none)

/-- C9: both edit operations validate before mutating: if validation
raises a `ValidationError`, no command is pushed and the undo stack
and model state are returned unchanged (the error propagates), and on
success the command is pushed onto the stack. -/
theorem c9_validate_before_mutate : ∀ (α ρ : Type)
    (validate : List (String × α) → Except String Unit) (setting : String) (value : α)
    (qr : Except String ρ) (s : StackState α ρ) (e : String)
    (validateProject : (String → α) → Except String Unit) (upd : List (String × α))
    (preview : Bool),
    (validate [(setting, value)] = .error e →
      edit_controls validate setting value qr s = (s, some e)) ∧
    (validate [(setting, value)] = .ok () →
      edit_controls validate setting value qr s
        = (pushCommand qr (mkModelEditCmd [(setting, value)] false s.state) s, none)) ∧
    (validateProject (applyValues upd s.state.model.attrs) = .error e →
      edit_project validateProject upd preview qr s = (s, some e)) ∧
    (validateProject (applyValues upd s.state.model.attrs) = .ok () →
      edit_project validateProject upd preview qr s
        = (pushCommand qr (mkModelEditCmd upd preview s.state) s, none)) := by
  intro α ρ validate setting value qr s e validateProject upd preview
  refine ⟨fun h => ?_, fun h => ?_, fun h => ?_, fun h => ?_⟩ <;>
    simp [edit_controls, edit_project, h]

/-- C9 witness: a failing and a succeeding validation at concrete
inputs. -/
theorem c9_validate_before_mutate_witness :
    (edit_controls (fun _ => Except.error "bad value") "procedure" 3 (Except.ok 0)
        ⟨exampleState, []⟩ = (⟨exampleState, []⟩, some "bad value")) ∧
    (edit_project (fun _ => Except.ok ()) [("name", 7)] false (Except.ok 0)
        ⟨exampleState, []⟩
      = (pushCommand (Except.ok 0) (mkModelEditCmd [("name", 7)] false exampleState)
          ⟨exampleState, []⟩, none)) :=
  ⟨(c9_validate_before_mutate Nat Nat (fun _ => Except.error "bad value") "procedure" 3
      (Except.ok 0) ⟨exampleState, []⟩ "bad value" (fun _ => Except.ok ()) [("name", 7)]
      false).1 rfl,
    (c9_validate_before_mutate Nat Nat (fun _ => Except.error "bad value") "procedure" 3
      (Except.ok 0) ⟨exampleState, []⟩ "bad value" (fun _ => Except.ok ()) [("name", 7)]
      false).2.2.2 rfl⟩

/-! ### `rascal2/ui/presenter.py`: `get_live_chi_squared`

The two compiled patterns `(\d+\.\d+)` and `Best: (\d+\.\d+)` are
embedded directly: `matchDecimalAt s` is the capture group of
`\d+\.\d+` matching at the head of `s` (the leading `\d+` is greedy
and cannot backtrack usefully, because giving back a digit puts a
digit in front of the `\.`), and `reSearch` is `re.search`'s
leftmost-position scan.  `\d` is modelled as an ASCII digit. -/

/-- Match `\d+\.\d+` exactly at the head of `s`, returning the capture
group. -/
def matchDecimalAt (s : List Char) : Option (List Char) :=
  let d1 := s.takeWhile Char.isDigit
  if d1.isEmpty then none
  else
    match s.dropWhile Char.isDigit with
    | '.' :: rest =>
      let d2 := rest.takeWhile Char.isDigit
      if d2.isEmpty then none else some (d1 ++ '.' :: d2)
    | _ => none

/-- Match `Best: (\d+\.\d+)` exactly at the head of `s`, returning the
capture group. -/
def matchBestAt (s : List Char) : Option (List Char) :=
  if "Best: ".toList.isPrefixOf s then matchDecimalAt (s.drop 6) else none

/-- `re.search`: try the pattern at each position from the left,
returning the first match found. -/
def reSearch (m : List Char → Option (List Char)) : List Char → Option (List Char)
  | [] => m []
  | c :: rest =>
    match m (c :: rest) with
    | some r => some r
    | none => reSearch m rest

/-- `get_live_chi_squared`: `None` for procedures without a pattern,
otherwise the first capture group of that procedure's pattern in the
message, or `None` when there is no match. -/
def get_live_chi_squared (item procedure : String) : Option String :=
  if procedure = "simplex" then
    (reSearch matchDecimalAt item.toList).map fun cs => String.mk cs
  else if procedure = "de" then
    (reSearch matchBestAt item.toList).map fun cs => String.mk cs
  else none

/-- Specification-side search: the match at the least position of the
message at which the pattern matches (`p` ranges over all positions,
including the end of the string). -/
def firstMatch (m : List Char → Option (List Char)) (s : List Char) :
    Option (List Char) :=
  (List.range (s.length + 1)).findSome? fun p => m (s.drop p)

theorem findSome?_map_succ (f : Nat → Option β) (l : List Nat) :
    (l.map Nat.succ).findSome? f = l.findSome? fun n => f n.succ := by
  induction l with
  | nil => rfl
  | cons a l ih =>
    simp only [List.map_cons, List.findSome?]
    cases f a.succ <;> simp [ih]

/-- The operational leftmost-scan search equals the specification-side
least-position search. -/
theorem reSearch_eq_firstMatch (m : List Char → Option (List Char)) :
    ∀ s, reSearch m s = firstMatch m s := by
  intro s
  induction s with
  | nil =>
    show m [] = _
    rw [firstMatch]
    simp only [List.length_nil, Nat.zero_add, List.range_succ, List.range_zero,
      List.nil_append, List.findSome?, List.drop_zero]
    cases m [] <;> rfl
  | cons c t ih =>
    rw [reSearch, firstMatch]
    have hrange : List.range ((c :: t).length + 1)
        = 0 :: (List.range (t.length + 1)).map Nat.succ := by
      rw [List.length_cons, List.range_succ_eq_map]
    rw [hrange]
    simp only [List.findSome?, List.drop_zero]
    cases hm : m (c :: t) with
    | some r => rfl
    | none =>
      rw [ih, firstMatch, findSome?_map_succ]
      rfl

theorem mem_takeWhile_isDigit {c : Char} {l : List Char}
    (h : c ∈ l.takeWhile Char.isDigit) : c.isDigit = true := by
  induction l with
  | nil => simp [List.takeWhile] at h
  | cons a l ih =>
    rw [List.takeWhile] at h
    cases ha : a.isDigit with
    | false => rw [ha] at h; simp at h
    | true =>
      rw [ha] at h
      rcases List.mem_cons.mp h with rfl | h'
      · exact ha
      · exact ih h'

/-- C10: `get_live_chi_squared` returns `None` whenever the procedure
is neither "simplex" nor "de"; for "de" it returns the capture group
of the leftmost occurrence of `Best: ` immediately followed by a
decimal number (digits, a dot, digits), for "simplex" the leftmost
decimal number anywhere in the message, and `None` when no match
exists (the searches are characterised by the least-position
specification `firstMatch`, and every successful decimal match indeed
has the digits-dot-digits shape at that position). -/
theorem c10_get_live_chi_squared_spec : ∀ (item procedure : String),
    (procedure ≠ "simplex" → procedure ≠ "de" →
      get_live_chi_squared item procedure = none) ∧
    (get_live_chi_squared item "de"
      = (firstMatch matchBestAt item.toList).map fun cs => String.mk cs) ∧
    (get_live_chi_squared item "simplex"
      = (firstMatch matchDecimalAt item.toList).map fun cs => String.mk cs) ∧
    (∀ (s t r : List Char), matchBestAt s = some r →
      ("Best: ".toList ++ t = s → matchDecimalAt t = some r)) ∧
    (∀ (s r : List Char), matchDecimalAt s = some r →
      ∃ d1 d2, d1 ≠ [] ∧ d2 ≠ [] ∧
        (∀ c ∈ d1, c.isDigit = true) ∧ (∀ c ∈ d2, c.isDigit = true) ∧
        r = d1 ++ '.' :: d2 ∧ List.IsPrefix (d1 ++ '.' :: d2) s) := by
  intro item procedure
  refine ⟨fun h1 h2 => ?_, ?_, ?_, ?_, ?_⟩
  · simp [get_live_chi_squared, h1, h2]
  · rw [get_live_chi_squared, if_neg (by decide), if_pos rfl,
      reSearch_eq_firstMatch]
  · rw [get_live_chi_squared, if_pos rfl, reSearch_eq_firstMatch]
  · intro s t r hm ht
    rw [matchBestAt] at hm
    rcases hpre : "Best: ".toList.isPrefixOf s with _ | _
    · rw [hpre] at hm; exact absurd hm (by simp)
    · rw [hpre] at hm
      simp only [if_pos] at hm
      have hdrop : s.drop 6 = t := by
        rw [← ht]
        exact List.drop_left "Best: ".toList t
      rwa [hdrop] at hm
  · intro s r hm
    rw [matchDecimalAt] at hm
    rcases h1 : (s.takeWhile Char.isDigit).isEmpty with _ | _
    swap
    · rw [h1] at hm; simp at hm
    rw [h1] at hm
    simp only [Bool.false_eq_true, if_false] at hm
    cases hdw : s.dropWhile Char.isDigit with
    | nil => rw [hdw] at hm; exact absurd hm (by simp)
    | cons c0 rest =>
      rw [hdw] at hm
      by_cases hc0 : c0 = '.'
      swap
      · cases c0
        simp_all [matchDecimalAt]
      subst hc0
      simp only at hm
      rcases h2 : (rest.takeWhile Char.isDigit).isEmpty with _ | _
      swap
      · rw [h2] at hm; simp at hm
      rw [h2] at hm
      simp only [Bool.false_eq_true, if_false, Option.some.injEq] at hm
      refine ⟨s.takeWhile Char.isDigit, rest.takeWhile Char.isDigit,
        by simpa [List.isEmpty_iff] using h1, by simpa [List.isEmpty_iff] using h2,
        fun c hc => mem_takeWhile_isDigit hc, fun c hc => mem_takeWhile_isDigit hc,
        hm.symm, ?_⟩
    -- the matched text is a prefix of `s`:
    -- `s = takeWhile ++ dropWhile = takeWhile ++ '.' :: rest`
    -- and `rest.takeWhile` is a prefix of `rest`.
      have hsplit : s.takeWhile Char.isDigit ++ '.' :: rest = s := by
        rw [← hdw]
        exact List.takeWhile_append_dropWhile _ _
      obtain ⟨u, hu⟩ := List.takeWhile_prefix (l := rest) Char.isDigit
      exact ⟨u, by rw [List.append_assoc, List.cons_append, hu, hsplit]⟩

/-- C10 witness: an unknown procedure yields no value; additionally
the characterisations applied at "de" and "simplex" on a concrete
message. -/
theorem c10_get_live_chi_squared_spec_witness :
    get_live_chi_squared "Best: 12.34" "triangulation" = none ∧
    get_live_chi_squared "Best: 12.34" "de"
      = (firstMatch matchBestAt "Best: 12.34".toList).map fun cs => String.mk cs :=
  ⟨(c10_get_live_chi_squared_spec "Best: 12.34" "triangulation").1 (by decide) (by decide),
    (c10_get_live_chi_squared_spec "Best: 12.34" "triangulation").2.1⟩

/-- Sanity check: the "de" pattern on a typical message. -/
theorem get_live_chi_squared_de_example :
    get_live_chi_squared "Iteration 3: Best: 12.34 worst: 20.1" "de" = some "12.34" := by
  decide

/-- Sanity check: the "simplex" pattern picks the leftmost decimal. -/
theorem get_live_chi_squared_simplex_example :
    get_live_chi_squared "f(x) = 3.5, step 7" "simplex" = some "3.5" := by
  decide

/-! ### `rascal2/core/writer.py`: `write_result_to_zipped_csvs`

The zip archive is modelled as the list of written
`(entry name, entry content)` pairs, in write order.  Numpy arrays are
lists of rows over an abstract cell type `α`; `np.savetxt(buf, array,
fmt=fmt, delimiter=delimiter)` renders each cell with the
numpy-owned `%`-formatting (abstracted as `formatCell fmt`), joins
each row with the delimiter and terminates it with a newline.
`results_fields` / `bayes_results_fields` are engine-owned constants,
carried as the field-name lists inside the results structure. -/

/-- A 2-D array: a list of rows. -/
abbrev Mat (α : Type) := List (List α)

/-- A numpy array of the dimensionalities the writer distinguishes:
`allChains` is 3-D, every other written array is 2-D (or is written
like one). -/
inductive NpArray (α : Type) where
  | d2 (m : Mat α)
  | d3 (t : List (Mat α))

/-- `np.savetxt` into a text buffer. -/
def savetxt (formatCell : String → α → String) (fmtStr delim : String) (rows : Mat α) :
    String :=
  String.join (rows.map fun row =>
    String.intercalate delim (row.map (formatCell fmtStr)) ++ "\n")

/-- `fmt = "%.8f"` from `write_result_to_zipped_csvs`. -/
def fmt : String := "%.8f"

/-- `delimiter = ", "` from `write_result_to_zipped_csvs`. -/
def delimiter : String := ", "

/-- Python `enumerate`, starting at `i`. -/
def enumFrom (i : Nat) : List β → List (Nat × β)
  | [] => []
  | x :: xs => (i, x) :: enumFrom (i + 1) xs

/-- The five fields of `results.contrastParams` written by the
`contrast_param_fields` loop. -/
structure ContrastParams (α : Type) where
  scalefactors : Mat α
  bulkIn : Mat α
  bulkOut : Mat α
  subRoughs : Mat α
  resample : Mat α

/-- One Bayes inner class (`predictionIntervals`,
`confidenceIntervals`, `nestedSamplerOutput` or `dreamOutput`) with
its `bayes_results_fields` name lists and field values. -/
structure BayesInner (α : Type) where
  listFields : List (String × List (Mat α))
  doubleListFields : List (String × List (List (Mat α)))
  arrayFields : List (String × NpArray α)

/-- The extra data of a `BayesResults`. -/
structure BayesData (α : Type) where
  predictionIntervals : BayesInner α
  confidenceIntervals : BayesInner α
  nestedSamplerOutput : BayesInner α
  dreamOutput : BayesInner α
  fromProcedureNS : Bool

/-- A results object: `results_fields["list_fields"]` /
`["double_list_fields"]` with their attribute values, the
`contrastParams` subobject, and the Bayes part exactly when the object
`isinstance(results, BayesResults)`. -/
structure Results (α : Type) where
  listFields : List (String × List (Mat α))
  doubleListFields : List (String × List (List (Mat α)))
  contrastParams : ContrastParams α
  bayes : Option (BayesData α)

/-- The `list_fields` loop: one entry per contrast. -/
def listFieldEntries (fc : String → α → String) (listField : String)
    (arrays : List (Mat α)) : List (String × String) :=
  (enumFrom 0 arrays).map fun ia =>
    (listField ++ "_contrast" ++ toString ia.1 ++ ".csv", savetxt fc fmt delimiter ia.2)

/-- The `double_list_fields` loop: one entry per domain array of each
contrast, the `_domain{j}` suffix present unless the contrast has
exactly one domain array. -/
def doubleListFieldEntries (fc : String → α → String) (listField : String)
    (ll : List (List (Mat α))) : List (String × String) :=
  (enumFrom 0 ll).flatMap fun idl =>
    (enumFrom 0 idl.2).map fun ja =>
      (listField ++ "_contrast" ++ toString idl.1 ++
          (if idl.2.length = 1 then "" else "_domain" ++ toString ja.1) ++ ".csv",
        savetxt fc fmt delimiter ja.2)

/-- The `contrast_param_fields` loop. -/
def contrastParamsEntries (fc : String → α → String) (cp : ContrastParams α) :
    List (String × String) :=
  [("contrastParams/scalefactors.csv", savetxt fc fmt delimiter cp.scalefactors),
   ("contrastParams/bulkIn.csv", savetxt fc fmt delimiter cp.bulkIn),
   ("contrastParams/bulkOut.csv", savetxt fc fmt delimiter cp.bulkOut),
   ("contrastParams/subRoughs.csv", savetxt fc fmt delimiter cp.subRoughs),
   ("contrastParams/resample.csv", savetxt fc fmt delimiter cp.resample)]

/-- All entries written before the Bayes `isinstance` check. -/
def baseEntries (fc : String → α → String) (res : Results α) : List (String × String) :=
  (res.listFields.flatMap fun fa => listFieldEntries fc fa.1 fa.2) ++
    (res.doubleListFields.flatMap fun fa => doubleListFieldEntries fc fa.1 fa.2) ++
    contrastParamsEntries fc res.contrastParams

/-- `array.reshape(-1, array.shape[-1])`: a 3-D array is flattened to
2-D (stacking the outer axis); a 2-D array keeps its shape. -/
def reshapeLast : NpArray α → Mat α
  | .d2 m => m
  | .d3 t => t.flatten

/-- One `array_fields` entry: the array named `allChains` is reshaped
first; `np.savetxt` on a 3-D array raises (`none`). -/
def writeArrayField (fc : String → α → String) (innerClass : String) :
    String × NpArray α → Option (String × String)
  | (field, arr) =>
    if field = "allChains" then
      some ("Bayes/" ++ (innerClass ++ "_" ++ field ++ ".csv"),
        savetxt fc fmt delimiter (reshapeLast arr))
    else
      match arr with
      | .d2 m =>
        some ("Bayes/" ++ (innerClass ++ "_" ++ field ++ ".csv"),
          savetxt fc fmt delimiter m)
      | .d3 _ => none

/-- List of successful results of `f`, `none` as soon as one fails. -/
def mapOpt (f : β → Option γ) : List β → Option (List γ)
  | [] => some []
  | x :: xs =>
    match f x, mapOpt f xs with
    | some y, some ys => some (y :: ys)
    | _, _ => none

/-- All entries of one Bayes inner class: its `list_fields`,
`double_list_fields` and `array_fields` loops. -/
def bayesInnerEntries (fc : String → α → String) (innerClass : String)
    (inner : BayesInner α) : Option (List (String × String)) :=
  let ls := inner.listFields.flatMap fun fa =>
    (enumFrom 0 fa.2).map fun ia =>
      ("Bayes/" ++ (innerClass ++ "_" ++ fa.1 ++ "_contrast" ++ toString ia.1 ++ ".csv"),
        savetxt fc fmt delimiter ia.2)
  let ds := inner.doubleListFields.flatMap fun fa =>
    (enumFrom 0 fa.2).flatMap fun idl =>
      (enumFrom 0 idl.2).map fun ja =>
        ("Bayes/" ++ (innerClass ++ "_" ++ fa.1 ++ "_contrast" ++ toString idl.1 ++
            (if idl.2.length = 1 then "" else "_domain" ++ toString ja.1) ++ ".csv"),
          savetxt fc fmt delimiter ja.2)
  (mapOpt (writeArrayField fc innerClass) inner.arrayFields).map fun afs =>
    ls ++ ds ++ afs

/-- The `inner_class` loop order: `predictionIntervals`,
`confidenceIntervals`, then `nestedSamplerOutput` if
`from_procedure() == "ns"` else `dreamOutput`. -/
def innerClasses (b : BayesData α) : List (String × BayesInner α) :=
  [("predictionIntervals", b.predictionIntervals),
   ("confidenceIntervals", b.confidenceIntervals),
   if b.fromProcedureNS then ("nestedSamplerOutput", b.nestedSamplerOutput)
   else ("dreamOutput", b.dreamOutput)]

/-- The Bayes sections, concatenated in loop order. -/
def innerSections (fc : String → α → String) :
    List (String × BayesInner α) → Option (List (String × String))
  | [] => some []
  | ci :: rest =>
    match bayesInnerEntries fc ci.1 ci.2, innerSections fc rest with
    | some es, some rest' => some (es ++ rest')
    | _, _ => none

/-- `write_result_to_zipped_csvs`: the archive contents, `none` when
`np.savetxt` raises on a 3-D non-`allChains` array. -/
def write_result_to_zipped_csvs (fc : String → α → String) (res : Results α) :
    Option (List (String × String)) :=
  match res.bayes with
  | none => some (baseEntries fc res)
  | some b => (innerSections fc (innerClasses b)).map fun bs => baseEntries fc res ++ bs

theorem mem_enumFrom {xs : List β} {k : Nat} {a : β} (j : Nat) (h : xs[k]? = some a) :
    (j + k, a) ∈ enumFrom j xs := by
  induction xs generalizing j k with
  | nil => simp at h
  | cons x t ih =>
    cases k with
    | zero =>
      simp only [List.getElem?_cons_zero, Option.some.injEq] at h
      subst h
      simp [enumFrom]
    | succ k =>
      rw [List.getElem?_cons_succ] at h
      have heq : (j + 1) + k = j + (k + 1) := by omega
      exact List.mem_cons_of_mem _ (heq ▸ ih (j + 1) h)

theorem mapOpt_forward {f : β → Option γ} :
    ∀ {l : List β} {ys : List γ}, mapOpt f l = some ys →
      ∀ x ∈ l, ∃ y, f x = some y ∧ y ∈ ys := by
  intro l
  induction l with
  | nil => intro ys _ x hx; simp at hx
  | cons x₀ xs ih =>
    intro ys h x hx
    rw [mapOpt] at h
    cases hf : f x₀ with
    | none => rw [hf] at h; exact absurd h (by simp)
    | some y₀ =>
      rw [hf] at h
      cases hrest : mapOpt f xs with
      | none => rw [hrest] at h; exact absurd h (by simp)
      | some ys' =>
        rw [hrest] at h
        simp only [Option.some.injEq] at h
        subst h
        rcases List.mem_cons.mp hx with rfl | hx'
        · exact ⟨y₀, hf, List.mem_cons_self _ _⟩
        · obtain ⟨y, hy, hymem⟩ := ih hrest x hx'
          exact ⟨y, hy, List.mem_cons_of_mem _ hymem⟩

theorem mapOpt_backward {f : β → Option γ} :
    ∀ {l : List β} {ys : List γ}, mapOpt f l = some ys →
      ∀ y ∈ ys, ∃ x ∈ l, f x = some y := by
  intro l
  induction l with
  | nil =>
    intro ys h y hy
    rw [mapOpt] at h
    simp only [Option.some.injEq] at h
    subst h
    simp at hy
  | cons x₀ xs ih =>
    intro ys h y hy
    rw [mapOpt] at h
    cases hf : f x₀ with
    | none => rw [hf] at h; exact absurd h (by simp)
    | some y₀ =>
      rw [hf] at h
      cases hrest : mapOpt f xs with
      | none => rw [hrest] at h; exact absurd h (by simp)
      | some ys' =>
        rw [hrest] at h
        simp only [Option.some.injEq] at h
        subst h
        rcases List.mem_cons.mp hy with rfl | hy'
        · exact ⟨x₀, List.mem_cons_self _ _, hf⟩
        · obtain ⟨x, hx, hfx⟩ := ih hrest y hy'
          exact ⟨x, List.mem_cons_of_mem _ hx, hfx⟩

/-- Every entry produced for a Bayes inner class is named under the
`Bayes/` prefix. -/
theorem bayesInnerEntries_prefixed {fc : String → α → String} {innerClass : String}
    {inner : BayesInner α} {es : List (String × String)}
    (h : bayesInnerEntries fc innerClass inner = some es) :
    ∀ e ∈ es, ∃ suffix, e.1 = "Bayes/" ++ suffix := by
  intro e he
  rw [bayesInnerEntries] at h
  obtain ⟨afs, hafs, rfl⟩ := Option.map_eq_some'.mp h
  rcases List.mem_append.mp he with he' | hafsmem
  · rcases List.mem_append.mp he' with hls | hds
    · obtain ⟨fa, _, hmem⟩ := List.mem_flatMap.mp hls
      obtain ⟨ia, _, rfl⟩ := List.mem_map.mp hmem
      exact ⟨_, rfl⟩
    · obtain ⟨fa, _, hmem⟩ := List.mem_flatMap.mp hds
      obtain ⟨idl, _, hmem'⟩ := List.mem_flatMap.mp hmem
      obtain ⟨ja, _, rfl⟩ := List.mem_map.mp hmem'
      exact ⟨_, rfl⟩
  · obtain ⟨x, _, hfx⟩ := mapOpt_backward hafs e hafsmem
    obtain ⟨field, arr⟩ := x
    rw [writeArrayField.eq_def] at hfx
    simp only at hfx
    by_cases hfield : field = "allChains"
    · rw [if_pos hfield] at hfx
      simp only [Option.some.injEq] at hfx
      subst hfx
      exact ⟨_, rfl⟩
    · rw [if_neg hfield] at hfx
      cases arr with
      | d2 m =>
        simp only [Option.some.injEq] at hfx
        subst hfx
        exact ⟨_, rfl⟩
      | d3 t => exact absurd hfx (by simp)

/-- Every inner class of a successful `innerSections` run contributes
its entries to the output. -/
theorem innerSections_forward {fc : String → α → String} :
    ∀ {l : List (String × BayesInner α)} {bs : List (String × String)},
      innerSections fc l = some bs →
      ∀ ci ∈ l, ∃ es, bayesInnerEntries fc ci.1 ci.2 = some es ∧ ∀ e ∈ es, e ∈ bs := by
  intro l
  induction l with
  | nil => intro bs _ ci hci; simp at hci
  | cons c₀ rest ih =>
    intro bs h ci hci
    rw [innerSections] at h
    cases hc₀ : bayesInnerEntries fc c₀.1 c₀.2 with
    | none => rw [hc₀] at h; exact absurd h (by simp)
    | some es₀ =>
      rw [hc₀] at h
      cases hrest : innerSections fc rest with
      | none => rw [hrest] at h; exact absurd h (by simp)
      | some rest' =>
        rw [hrest] at h
        simp only [Option.some.injEq] at h
        subst h
        rcases List.mem_cons.mp hci with rfl | hci'
        · exact ⟨es₀, hc₀, fun e he => List.mem_append_left _ he⟩
        · obtain ⟨es, hes, hmem⟩ := ih hrest ci hci'
          exact ⟨es, hes, fun e he => List.mem_append_right _ (hmem e he)⟩

/-- Every entry of a successful `innerSections` run is named under the
`Bayes/` prefix. -/
theorem innerSections_prefixed {fc : String → α → String} :
    ∀ {l : List (String × BayesInner α)} {bs : List (String × String)},
      innerSections fc l = some bs →
      ∀ e ∈ bs, ∃ suffix, e.1 = "Bayes/" ++ suffix := by
  intro l
  induction l with
  | nil =>
    intro bs h e he
    rw [innerSections] at h
    simp only [Option.some.injEq] at h
    subst h
    simp at he
  | cons c₀ rest ih =>
    intro bs h e he
    rw [innerSections] at h
    cases hc₀ : bayesInnerEntries fc c₀.1 c₀.2 with
    | none => rw [hc₀] at h; exact absurd h (by simp)
    | some es₀ =>
      rw [hc₀] at h
      cases hrest : innerSections fc rest with
      | none => rw [hrest] at h; exact absurd h (by simp)
      | some rest' =>
        rw [hrest] at h
        simp only [Option.some.injEq] at h
        subst h
        rcases List.mem_append.mp he with he' | he'
        · exact bayesInnerEntries_prefixed hc₀ e he'
        · exact ih hrest e he'

/-- C3: for every results object the writer emits one
`{list_field}_contrast{i}.csv` entry per array of each list field,
double-list entries carrying a `_domain{j}` suffix exactly when the
contrast holds more than one domain array, one
`contrastParams/{field}.csv` entry for each of the five contrast
parameter fields, and entries under the `Bayes/` prefix iff the
results object is a `BayesResults` (the Bayes block is appended
exactly when the Bayes part is present, all of its entries are named
`Bayes/...`, the Bayes list fields contribute their contrast entries,
and the 3-D `allChains` array is flattened to 2-D); every entry's
content is rendered by `savetxt` with format `"%.8f"` and delimiter
`", "` (the literals bound to `fmt` and `delimiter`). -/
theorem c3_write_result_to_zipped_csvs_spec : ∀ (α : Type) (fc : String → α → String)
    (res : Results α) (es : List (String × String)),
    write_result_to_zipped_csvs fc res = some es →
    (∀ (f : String) (arrays : List (Mat α)) (i : Nat) (a : Mat α),
      (f, arrays) ∈ res.listFields → arrays[i]? = some a →
      (f ++ "_contrast" ++ toString i ++ ".csv", savetxt fc fmt delimiter a) ∈ es) ∧
    (∀ (f : String) (ll : List (List (Mat α))) (i j : Nat) (dl : List (Mat α)) (a : Mat α),
      (f, ll) ∈ res.doubleListFields → ll[i]? = some dl → dl[j]? = some a →
      (f ++ "_contrast" ++ toString i ++
          (if 1 < dl.length then "_domain" ++ toString j else "") ++ ".csv",
        savetxt fc fmt delimiter a) ∈ es) ∧
    (("contrastParams/scalefactors.csv",
        savetxt fc fmt delimiter res.contrastParams.scalefactors) ∈ es ∧
      ("contrastParams/bulkIn.csv", savetxt fc fmt delimiter res.contrastParams.bulkIn) ∈ es ∧
      ("contrastParams/bulkOut.csv", savetxt fc fmt delimiter res.contrastParams.bulkOut) ∈ es ∧
      ("contrastParams/subRoughs.csv",
        savetxt fc fmt delimiter res.contrastParams.subRoughs) ∈ es ∧
      ("contrastParams/resample.csv",
        savetxt fc fmt delimiter res.contrastParams.resample) ∈ es) ∧
    (res.bayes = none → es = baseEntries fc res) ∧
    (∀ b, res.bayes = some b →
      ∃ bs, innerSections fc (innerClasses b) = some bs ∧
        es = baseEntries fc res ++ bs ∧
        ∀ e ∈ bs, ∃ suffix, e.1 = "Bayes/" ++ suffix) ∧
    (∀ b (cname : String) (inner : BayesInner α) (f : String)
        (arrays : List (Mat α)) (i : Nat) (a : Mat α),
      res.bayes = some b → (cname, inner) ∈ innerClasses b →
      (f, arrays) ∈ inner.listFields → arrays[i]? = some a →
      ("Bayes/" ++ (cname ++ "_" ++ f ++ "_contrast" ++ toString i ++ ".csv"),
        savetxt fc fmt delimiter a) ∈ es) ∧
    (∀ (cname : String) (t : List (Mat α)),
      writeArrayField fc cname ("allChains", NpArray.d3 t)
        = some ("Bayes/" ++ (cname ++ "_" ++ "allChains" ++ ".csv"),
            savetxt fc fmt delimiter t.flatten)) := by
  intro α fc res es h
  have hsub : ∀ e ∈ baseEntries fc res, e ∈ es := by
    intro e he
    rw [write_result_to_zipped_csvs] at h
    cases hb : res.bayes with
    | none =>
      rw [hb] at h
      simp only [Option.some.injEq] at h
      rw [← h]
      exact he
    | some b =>
      rw [hb] at h
      obtain ⟨bs, _, hes⟩ := Option.map_eq_some'.mp h
      rw [← hes]
      exact List.mem_append_left _ he
  refine ⟨?_, ?_, ⟨?_, ?_, ?_, ?_, ?_⟩, ?_, ?_, ?_, ?_⟩
  · intro f arrays i a hf ha
    apply hsub
    rw [baseEntries]
    refine List.mem_append_left _ (List.mem_append_left _ ?_)
    refine List.mem_flatMap.mpr ⟨(f, arrays), hf, ?_⟩
    rw [listFieldEntries]
    exact List.mem_map.mpr ⟨(i, a), by simpa using mem_enumFrom 0 ha, rfl⟩
  · intro f ll i j dl a hf hll hdl
    have hcond : (if dl.length = 1 then "" else "_domain" ++ toString j)
        = (if 1 < dl.length then "_domain" ++ toString j else "") := by
      have hlt : j < dl.length := (List.getElem?_eq_some_iff.mp hdl).1
      rcases Nat.lt_or_ge 1 dl.length with h1 | h1
      · rw [if_neg (by omega), if_pos h1]
      · have h2 : dl.length = 1 := by omega
        rw [if_pos h2, if_neg (by omega)]
    apply hsub
    rw [baseEntries]
    refine List.mem_append_left _ (List.mem_append_right _ ?_)
    refine List.mem_flatMap.mpr ⟨(f, ll), hf, ?_⟩
    rw [doubleListFieldEntries]
    refine List.mem_flatMap.mpr ⟨(i, dl), by simpa using mem_enumFrom 0 hll, ?_⟩
    refine List.mem_map.mpr ⟨(j, a), by simpa using mem_enumFrom 0 hdl, ?_⟩
    rw [hcond]
  · exact hsub _ (by simp [baseEntries, contrastParamsEntries])
  · exact hsub _ (by simp [baseEntries, contrastParamsEntries])
  · exact hsub _ (by simp [baseEntries, contrastParamsEntries])
  · exact hsub _ (by simp [baseEntries, contrastParamsEntries])
  · exact hsub _ (by simp [baseEntries, contrastParamsEntries])
  · intro hb
    rw [write_result_to_zipped_csvs, hb] at h
    simp only [Option.some.injEq] at h
    exact h.symm
  · intro b hb
    rw [write_result_to_zipped_csvs, hb] at h
    obtain ⟨bs, hbs, hes⟩ := Option.map_eq_some'.mp h
    exact ⟨bs, hbs, hes.symm, innerSections_prefixed hbs⟩
  · intro b cname inner f arrays i a hb hci hf ha
    rw [write_result_to_zipped_csvs, hb] at h
    obtain ⟨bs, hbs, hes⟩ := Option.map_eq_some'.mp h
    obtain ⟨es', hes', hmem⟩ := innerSections_forward hbs (cname, inner) hci
    rw [bayesInnerEntries] at hes'
    obtain ⟨afs, _, rfl⟩ := Option.map_eq_some'.mp hes'
    have htarget : ("Bayes/" ++ (cname ++ "_" ++ f ++ "_contrast" ++ toString i ++ ".csv"),
        savetxt fc fmt delimiter a) ∈
          inner.listFields.flatMap fun fa =>
            (enumFrom 0 fa.2).map fun ia =>
              ("Bayes/" ++ (cname ++ "_" ++ fa.1 ++ "_contrast" ++ toString ia.1 ++ ".csv"),
                savetxt fc fmt delimiter ia.2) := by
      refine List.mem_flatMap.mpr ⟨(f, arrays), hf, ?_⟩
      exact List.mem_map.mpr ⟨(i, a), by simpa using mem_enumFrom 0 ha, rfl⟩
    rw [← hes]
    exact List.mem_append_right _
      (hmem _ (List.mem_append_left _ (List.mem_append_left _ htarget)))
  · intro cname t
    simp [writeArrayField, reshapeLast]

/-- C3 witness: a concrete (non-Bayes) results object; the first
list-field contrast entry is present in the archive. -/
theorem c3_write_result_to_zipped_csvs_spec_witness :
    ("reflectivity" ++ "_contrast" ++ toString 0 ++ ".csv",
      savetxt (fun _ n => toString n) fmt delimiter [[1, 2]]) ∈
      baseEntries (fun _ n => toString n)
        ({ listFields := [("reflectivity", [[[1, 2]]])],
           doubleListFields := [("sldProfiles", [[[[3]], [[4]]]])],
           contrastParams :=
             { scalefactors := [[5]], bulkIn := [[6]], bulkOut := [[7]],
               subRoughs := [[8]], resample := [[9]] },
           bayes := none } : Results Nat) :=
  (c3_write_result_to_zipped_csvs_spec Nat (fun _ n => toString n)
      { listFields := [("reflectivity", [[[1, 2]]])],
        doubleListFields := [("sldProfiles", [[[[3]], [[4]]]])],
        contrastParams :=
          { scalefactors := [[5]], bulkIn := [[6]], bulkOut := [[7]],
            subRoughs := [[8]], resample := [[9]] },
        bayes := none } _ rfl).1 "reflectivity" [[[1, 2]]] 0 [[1, 2]] (by simp) rfl

end RasCAL2
